import Mathlib

/-!
Verification of the address decomposition and validation pipeline of the
syslink repository (deliquency-crawler scripts).

The definitions below are a shallow embedding of the Python source:

* `validate_and_fix_address` embeds `validate_and_fix_address` from
  `json_to_dealmachine_csv.py` (lines 166-265).  The Python function takes a
  dict of address parts (optionally carrying a `county` key) and returns a
  triple `(fixed_parts, is_valid, error_message)`.  We model the dict as the
  structure `AddressParts` where an absent `county` key is the empty string
  (Python truth-tests the value, so `''` and a missing key behave alike), and
  we return the list of error reasons; the Python code renders it with
  `'; '.join(errors)` at the boundary.

* `parse_address_regex` embeds the rule-based fallback decomposer
  `parse_address_regex` from `json_to_dealmachine_csv.py` (lines 93-153),
  including its regex searches, translated operationally: Python
  `re.search(r'\b(\d{5}(?:-\d{4})?)\b', s)` is the leftmost scan
  `searchZipUn`, and `re.search(r'\b([A-Z]{2})\s*[,.]?\s*$', s)` is
  `searchStateJson`.

* `addLeads_parse_address` embeds `parse_address` from
  `add_leads_to_dealmachine.py` (lines 130-226) with its end-anchored
  regexes `\b(\d{5}(?:-\d{4})?)\s*$` and `\b([A-Z]{2})\s*$`.

Character predicates mirror the Python/`re` ASCII semantics
(`str.isdigit`, `str.isalpha`, `\s`, `\w`, `str.strip`, `str.upper`).
-/

/-! ## Character predicates (ASCII semantics of Python `str` and `re`) -/

def pyIsDigit (c : Char) : Bool := '0' ≤ c && c ≤ '9'

def pyIsAlpha (c : Char) : Bool := ('A' ≤ c && c ≤ 'Z') || ('a' ≤ c && c ≤ 'z')

def pyWs (c : Char) : Bool :=
  c == ' ' || c == '\t' || c == '\n' || c == '\r' || c == '\x0b' || c == '\x0c'

def isWordChar (c : Char) : Bool := pyIsAlpha c || pyIsDigit c || c == '_'

def isUpperAZ (c : Char) : Bool := 'A' ≤ c && c ≤ 'Z'

/-! ## List-of-char utilities mirroring Python string operations -/

/-- Python `str.strip()` on the left: drop leading whitespace. -/
def stripLeft (l : List Char) : List Char := l.dropWhile pyWs

/-- Python `str.strip()` on the right: drop trailing whitespace. -/
def stripRight (l : List Char) : List Char := (l.reverse.dropWhile pyWs).reverse

/-- Python `str.strip()`. -/
def pyStrip (l : List Char) : List Char := stripRight (stripLeft l)

/-- Python `re.sub(r'\s+', ' ', s)`: collapse every maximal whitespace run
to a single space. -/
def collapseWs : List Char → List Char
  | [] => []
  | [c] => if pyWs c then [' '] else [c]
  | a :: b :: r =>
    if pyWs a && pyWs b then collapseWs (b :: r)
    else (if pyWs a then ' ' else a) :: collapseWs (b :: r)

/-- Python `s.split(sep)` for a one-character separator (keeps empty parts). -/
def splitOnChar (sep : Char) : List Char → List (List Char)
  | [] => [[]]
  | c :: rest =>
    if c == sep then [] :: splitOnChar sep rest
    else
      match splitOnChar sep rest with
      | [] => [[c]]
      | p :: ps => (c :: p) :: ps

/-- Inverse of `splitOnChar`: rejoin the parts with the separator. -/
def joinWith (sep : Char) : List (List Char) → List Char
  | [] => []
  | [a] => a
  | a :: rest => a ++ sep :: joinWith sep rest

/-- Python `s.split(sep, 1)`: break at the first occurrence of `sep`
(assuming it occurs; if not, the whole list is the first component). -/
def breakAt (sep : Char) : List Char → List Char × List Char
  | [] => ([], [])
  | c :: r =>
    if c == sep then ([], r)
    else
      let p := breakAt sep r
      (c :: p.1, p.2)

/-- Python `' '.join(parts)`. -/
def joinSpace : List (List Char) → List Char
  | [] => []
  | [a] => a
  | a :: rest => a ++ ' ' :: joinSpace rest

/-- Python `s.split()` (no argument): split on whitespace runs, no empty
parts.  `cur` is the word currently being read (reversed), `acc` the words
found so far (reversed). -/
def pyWordsAux : List Char → List (List Char) → List Char → List (List Char)
  | cur, acc, [] => if cur.isEmpty then acc.reverse else (cur.reverse :: acc).reverse
  | cur, acc, c :: r =>
    if pyWs c then
      if cur.isEmpty then pyWordsAux [] acc r
      else pyWordsAux [] (cur.reverse :: acc) r
    else pyWordsAux (c :: cur) acc r

def pyWords (l : List Char) : List (List Char) := pyWordsAux [] [] l

/-- Python `word.rstrip('.')`. -/
def rstripDots (l : List Char) : List Char := (l.reverse.dropWhile (· == '.')).reverse

/-! ## Data model -/

/-- The decomposed address record.  Mirrors the Python dict with keys
`street`, `city`, `state`, `zip_code`; the optional `county` hint added by
the caller (`convert_json_to_csv` line 289) is the `county` field, with the
empty string standing for an absent key (Python only ever truth-tests it). -/
structure AddressParts where
  street : String
  city : String
  state : String
  zip_code : String
  county : String
  deriving DecidableEq, Repr

/-! ## Zip repair (lines 178-217 of `json_to_dealmachine_csv.py`) -/

/-- `''.join(c for c in zip_code if c.isdigit() or c == '-')`. -/
def zipFilter (l : List Char) : List Char := l.filter (fun c => pyIsDigit c || c == '-')

/-- The 6-digit and 4-digit repairs (lines 183-194).  Returns the possibly
rewritten zip together with the reasons recorded so far. -/
def repairStage1 (st : String) (c0 : List Char) : List Char × List String :=
  if c0.length = 6 ∧ '-' ∉ c0 then (c0.take 5 ++ '-' :: c0.drop 5, [])
  else if c0.length = 4 ∧ '-' ∉ c0 then
    (if st = "FL" then ('3' :: c0, [])
     else (c0, ["Invalid 4-digit zip: " ++ String.mk c0]))
  else (c0, [])

/-- The zip+4 / 5-digit format checks (lines 196-215), applied to the output
of `repairStage1`. -/
def repairStage2 (c1 : List Char) : List Char × List String :=
  if '-' ∈ c1 then
    match splitOnChar '-' c1 with
    | [p0, p1] =>
      if ¬(p0.length = 5 ∧ p0.all pyIsDigit = true) then
        (c1, ["Invalid zip format (first part): " ++ String.mk c1])
      else if p1 ≠ [] then
        if p1.length < 4 then (p0, [])
        else if ¬(p1.length = 4 ∧ p1.all pyIsDigit = true) then
          (c1, ["Invalid zip+4 format (second part): " ++ String.mk c1])
        else (c1, [])
      else (c1, [])
    | _ => (c1, ["Invalid zip+4 format (multiple hyphens): " ++ String.mk c1])
  else
    if c1.length = 5 ∧ c1.all pyIsDigit = true then (c1, [])
    else (c1, ["Invalid zip format: " ++ String.mk c1])

/-- The whole zip-repair block for a non-empty zip. -/
def repairZip (st : String) (z : List Char) : List Char × List String :=
  ((repairStage2 (repairStage1 st (zipFilter z)).1).1,
   (repairStage1 st (zipFilter z)).2 ++ (repairStage2 (repairStage1 st (zipFilter z)).1).2)

/-- Zip after the `if zip_code:` guard (line 179): the empty zip is left
untouched and produces no reasons. -/
def zipStage (p : AddressParts) : List Char × List String :=
  if p.zip_code = "" then (p.zip_code.data, []) else repairZip p.state p.zip_code.data

def zipFixed (p : AddressParts) : List Char := (zipStage p).1

def zipErrs (p : AddressParts) : List String := (zipStage p).2

def zipStr (p : AddressParts) : String := String.mk (zipFixed p)

/-! ## Validation (lines 219-265) -/

def canadianProvinces : List String :=
  ["ON", "BC", "AB", "QC", "MB", "SK", "NS", "NB", "PE", "NL", "YT", "NT", "NU"]

/-- `has_full_address = street and city and state and zip_code` (line 235),
with `zip_code` the post-repair value. -/
def fullOk (p : AddressParts) : Bool :=
  (p.street != "") && (p.city != "") && (p.state != "") && (zipStr p != "")

/-- `has_county_fallback = address_parts.get('county') and state and zip_code`
(line 236). -/
def countyOk (p : AddressParts) : Bool :=
  (p.county != "") && (p.state != "") && (zipStr p != "")

/-- The missing-field reasons appended by lines 239-252.  When street is
empty and a county hint is present, the code only computes the unused
`has_minimum` and appends nothing; otherwise it appends one reason per
missing component of the full address (state is never reported missing). -/
def missingReasons (p : AddressParts) : List String :=
  if p.street = "" ∧ p.county ≠ "" then []
  else if fullOk p = true then []
  else
    (if p.street = "" then ["Missing street address"] else []) ++
    (if p.city = "" then ["Missing city"] else []) ++
    (if zipStr p = "" then ["Missing zip code"] else [])

/-- `validate_and_fix_address` (lines 166-265).  Returns the fixed parts, the
validity flag and the list of reasons (joined with `'; '` at the Python
boundary).  The two early returns at lines 222 and 227 hand back the input
dict unchanged.  The returned `fixed_parts` dict has no `county` key, hence
`county := ""`. -/
def validate_and_fix_address (p : AddressParts) : AddressParts × Bool × List String :=
  if p.state ∈ canadianProvinces then
    (p, false, zipErrs p ++ ["Non-US address (Canadian province: " ++ p.state ++ ")"])
  else if zipFixed p ≠ [] ∧ (zipFixed p).any pyIsAlpha = true then
    (p, false, zipErrs p ++ ["Canadian/non-US postal code: " ++ zipStr p])
  else
    (⟨p.street, p.city, p.state, zipStr p, ""⟩,
     (fullOk p || (countyOk p && (p.state != ""))) && (zipErrs p ++ missingReasons p).isEmpty,
     zipErrs p ++ missingReasons p)

/-! ## Regex scanners

Operational translations of the Python `re.search` calls.  Each scanner
walks the character list from the left carrying the previous character (for
the `\b` word-boundary test) and an accumulator holding the characters
already passed (reversed), so that the leftmost match and the text before
it (`s[:match.start()]`) are returned together, exactly as `re.search`
provides them. -/

/-- Try to read exactly `n` digit characters from the front. -/
def takeDigits : Nat → List Char → Option (List Char × List Char)
  | 0, l => some ([], l)
  | _ + 1, [] => none
  | n + 1, c :: l =>
    if pyIsDigit c then
      match takeDigits n l with
      | some (d, r) => some (c :: d, r)
      | none => none
    else none

/-- `\b` holds after the match when the next character is absent or not a
word character (the last matched character is always a digit). -/
def boundaryAfter : List Char → Bool
  | [] => true
  | c :: _ => !isWordChar c

/-- Match `(\d{5}(?:-\d{4})?)\b` at the current position, greedily trying
the zip+4 alternative first and backtracking to the bare 5 digits when the
trailing boundary fails (standard regex backtracking). -/
def zipMatchHere (l : List Char) : Option (List Char × List Char) :=
  match takeDigits 5 l with
  | none => none
  | some (d5, r1) =>
    match r1 with
    | '-' :: r2 =>
      (match takeDigits 4 r2 with
       | some (d4, r3) =>
         if boundaryAfter r3 then some (d5 ++ '-' :: d4, r3)
         else if boundaryAfter r1 then some (d5, r1) else none
       | none => if boundaryAfter r1 then some (d5, r1) else none)
    | _ => if boundaryAfter r1 then some (d5, r1) else none

/-- `re.search(r'\b(\d{5}(?:-\d{4})?)\b', s)` (line 111 of
`json_to_dealmachine_csv.py`): leftmost, unanchored.  Returns
`(text before the match, matched token, text after)`. -/
def searchZipUn : Option Char → List Char → List Char → Option (List Char × List Char × List Char)
  | _, _, [] => none
  | prev, acc, c :: rest =>
    let bOk := match prev with
      | none => true
      | some q => !isWordChar q
    match (if bOk then zipMatchHere (c :: rest) else none) with
    | some (tok, suf) => some (acc.reverse, tok, suf)
    | none => searchZipUn (some c) (c :: acc) rest

/-- Match `(\d{5}(?:-\d{4})?)\s*$` at the current position. -/
def zipAnchHere (l : List Char) : Option (List Char) :=
  match takeDigits 5 l with
  | none => none
  | some (d5, r1) =>
    match r1 with
    | '-' :: r2 =>
      (match takeDigits 4 r2 with
       | some (d4, r3) =>
         if (r3.dropWhile pyWs).isEmpty then some (d5 ++ '-' :: d4)
         else if (r1.dropWhile pyWs).isEmpty then some d5 else none
       | none => if (r1.dropWhile pyWs).isEmpty then some d5 else none)
    | _ => if (r1.dropWhile pyWs).isEmpty then some d5 else none

/-- `re.search(r'\b(\d{5}(?:-\d{4})?)\s*$', s)` (line 141 of
`add_leads_to_dealmachine.py`): anchored at the end of the string. -/
def searchZipAnch : Option Char → List Char → List Char → Option (List Char × List Char)
  | _, _, [] => none
  | prev, acc, c :: rest =>
    let bOk := match prev with
      | none => true
      | some q => !isWordChar q
    match (if bOk then zipAnchHere (c :: rest) else none) with
    | some tok => some (acc.reverse, tok)
    | none => searchZipAnch (some c) (c :: acc) rest

/-- Match `([A-Z]{2})\s*[,.]?\s*$` at the current position. -/
def stateJsonHere : List Char → Option (List Char)
  | a :: b :: r =>
    if isUpperAZ a && isUpperAZ b then
      let r1 := r.dropWhile pyWs
      let r2 := match r1 with
        | c :: t => if c == ',' || c == '.' then t else r1
        | [] => r1
      if (r2.dropWhile pyWs).isEmpty then some [a, b] else none
    else none
  | _ => none

/-- `re.search(r'\b([A-Z]{2})\s*[,.]?\s*$', s)` (line 120 of
`json_to_dealmachine_csv.py`). -/
def searchStateJson : Option Char → List Char → List Char → Option (List Char × List Char)
  | _, _, [] => none
  | prev, acc, c :: rest =>
    let bOk := match prev with
      | none => true
      | some q => !isWordChar q
    match (if bOk then stateJsonHere (c :: rest) else none) with
    | some tok => some (acc.reverse, tok)
    | none => searchStateJson (some c) (c :: acc) rest

/-- Match `([A-Z]{2})\s*$` at the current position. -/
def stateLeadsHere : List Char → Option (List Char)
  | a :: b :: r =>
    if isUpperAZ a && isUpperAZ b then
      if (r.dropWhile pyWs).isEmpty then some [a, b] else none
    else none
  | _ => none

/-- `re.search(r'\b([A-Z]{2})\s*$', s)` (line 151 of
`add_leads_to_dealmachine.py`). -/
def searchStateLeads : Option Char → List Char → List Char → Option (List Char × List Char)
  | _, _, [] => none
  | prev, acc, c :: rest =>
    let bOk := match prev with
      | none => true
      | some q => !isWordChar q
    match (if bOk then stateLeadsHere (c :: rest) else none) with
    | some tok => some (acc.reverse, tok)
    | none => searchStateLeads (some c) (c :: acc) rest

/-! ## The rule-based decomposer `parse_address_regex` (lines 93-153) -/

def slashToComma (c : Char) : Char := if c == '/' then ',' else c

/-- Lines 106-108: `strip`, `replace('/', ',')`, `re.sub(r'\s+', ' ', ...)`. -/
def cleanAddr (s : String) : List Char := collapseWs ((pyStrip s.data).map slashToComma)

/-- The matched zip token, or `[]` when the pattern does not occur. -/
def regexZipTok (s : String) : List Char :=
  match searchZipUn none [] (cleanAddr s) with
  | some (_, tok, _) => tok
  | none => []

/-- `address_without_zip` (lines 114-117). -/
def regexAwz (s : String) : List Char :=
  match searchZipUn none [] (cleanAddr s) with
  | some (pre, _, _) => pyStrip pre
  | none => cleanAddr s

/-- The state token, defaulting to `FL` when absent (line 121). -/
def regexStateTok (s : String) : List Char :=
  match searchStateJson none [] (regexAwz s) with
  | some (_, tok) => tok
  | none => ['F', 'L']

/-- `address_without_state` before punctuation stripping (lines 123-126). -/
def regexAws (s : String) : List Char :=
  match searchStateJson none [] (regexAwz s) with
  | some (pre, _) => pyStrip pre
  | none => regexAwz s

/-- `re.sub(r'[,.]+\s*$', '', s)`: remove the final contiguous run of
commas and periods that is followed only by whitespace. -/
def subTrailPunct (l : List Char) : List Char :=
  let r1 := l.reverse.dropWhile pyWs
  match r1 with
  | c :: _ =>
    if c == ',' || c == '.' then (r1.dropWhile (fun d => d == ',' || d == '.')).reverse
    else l
  | [] => l

/-- `address_without_state` as used for the street/city split (line 128). -/
def regexRemainder (s : String) : List Char := pyStrip (subTrailPunct (regexAws s))

/-- The nonempty stripped comma-separated parts (lines 132-133). -/
def partsOf (rem : List Char) : List (List Char) :=
  ((splitOnChar ',' rem).map pyStrip).filter (fun p => !p.isEmpty)

/-- Lines 131-143: if a comma is present, split on ALL commas, keep the
last nonempty part as city and rejoin the other parts with spaces as
street; with no comma the whole remainder is street. -/
def commaSplitRegex (rem : List Char) : List Char × List Char :=
  if ',' ∈ rem then
    match partsOf rem with
    | [] => ([], [])
    | [p] => (p, [])
    | p :: q :: rest => (joinSpace ((p :: q :: rest).dropLast), (p :: q :: rest).getLastD [])
  else (rem, [])

/-- Final cleanup `re.sub(r'[,.()*]', '', x).strip()` (lines 145-146). -/
def cleanField (l : List Char) : List Char :=
  pyStrip (l.filter (fun c => !(c == ',' || c == '.' || c == '(' || c == ')' || c == '*')))

/-- `parse_address_regex` (lines 93-153).  `none` models a non-string (or
falsy) argument caught by the guard at line 98. -/
def parse_address_regex (x : Option String) : AddressParts :=
  match x with
  | none => ⟨"", "", "", "", ""⟩
  | some s =>
    if s = "" then ⟨"", "", "", "", ""⟩
    else
      let sc := commaSplitRegex (regexRemainder s)
      ⟨String.mk (cleanField sc.1), String.mk (cleanField sc.2),
       String.mk (regexStateTok s), String.mk (regexZipTok s), ""⟩

/-! ## `parse_address` from `add_leads_to_dealmachine.py` (lines 130-226) -/

def street_indicators : List String :=
  ["ST", "STREET", "AVE", "AVENUE", "ROAD", "RD", "BLVD",
   "BOULEVARD", "LANE", "LN", "DR", "DRIVE", "CT", "COURT",
   "WAY", "PL", "PLACE", "PKWY", "PARKWAY", "CIR", "CIRCLE",
   "TER", "TERRACE", "HWY", "HIGHWAY"]

/-- `word.rstrip('.').upper() in street_indicators` (lines 185-186). -/
def isStreetIndicator (w : List Char) : Bool :=
  street_indicators.contains (String.mk ((rstripDots w).map Char.toUpper))

/-- The loop of lines 183-188: `idx + 1` for the first word that is a
street indicator. -/
def findSuffixIdx : List (List Char) → Option Nat
  | [] => none
  | w :: ws =>
    if isStreetIndicator w then some 1
    else (findSuffixIdx ws).map (· + 1)

/-- Lines 194-203: the positional fallback when no usable indicator split
exists. -/
def leadsFallback (aws : List Char) (words : List (List Char)) : List Char × List Char :=
  if words.length > 3 then
    (joinSpace (words.take (words.length - 2)), joinSpace (words.drop (words.length - 2)))
  else if words.length > 1 then
    (joinSpace (words.take (words.length - 1)), joinSpace (words.drop (words.length - 1)))
  else (aws, [])

/-- Lines 168-203: the street/city split applied to
`address_without_state` once both state and zip were found. -/
def leadsStreetCity (aws : List Char) : List Char × List Char :=
  if ',' ∈ aws then
    let p := breakAt ',' aws
    (pyStrip p.1, pyStrip p.2)
  else if '/' ∈ aws then
    let p := breakAt '/' aws
    (pyStrip p.1, pyStrip p.2)
  else
    let words := pyWords aws
    match findSuffixIdx words with
    | some k =>
      if k < words.length then (joinSpace (words.take k), joinSpace (words.drop k))
      else leadsFallback aws words
    | none => leadsFallback aws words

/-- The zip token found by the anchored search, or `[]`. -/
def leadsZipTok (s : String) : List Char :=
  match searchZipAnch none [] s.data with
  | some (_, tok) => tok
  | none => []

/-- `address_without_zip` (lines 145-148). -/
def leadsAwz (s : String) : List Char :=
  match searchZipAnch none [] s.data with
  | some (pre, _) => pyStrip pre
  | none => s.data

/-- The state token, or `[]` (line 152). -/
def leadsStateTok (s : String) : List Char :=
  match searchStateLeads none [] (leadsAwz s) with
  | some (_, tok) => tok
  | none => []

/-- `address_without_state` (lines 154-158). -/
def leadsAws (s : String) : List Char :=
  match searchStateLeads none [] (leadsAwz s) with
  | some (pre, _) => pyStrip pre
  | none => leadsAwz s

/-- `parse_address` from `add_leads_to_dealmachine.py`.  The result keys
`address`, `city`, `state`, `zip` map onto the `AddressParts` fields; when
state or zip is missing the whole raw string is returned as the street
(lines 211-218). -/
def addLeads_parse_address (s : String) : AddressParts :=
  if leadsStateTok s ≠ [] ∧ leadsZipTok s ≠ [] then
    let sc := leadsStreetCity (leadsAws s)
    ⟨String.mk sc.1, String.mk sc.2, String.mk (leadsStateTok s),
     String.mk (leadsZipTok s), ""⟩
  else ⟨s, "", "", "", ""⟩

/-! ## Character-class lemmas -/

lemma pyIsDigit_iff (c : Char) : pyIsDigit c = true ↔ '0' ≤ c ∧ c ≤ '9' := by
  simp [pyIsDigit]

lemma pyDigit_not_alpha (c : Char) (h : pyIsDigit c = true) : pyIsAlpha c = false := by
  rcases (pyIsDigit_iff c).mp h with ⟨_, h9⟩
  have hA : ¬('A' ≤ c) := fun hA => absurd (le_trans hA h9) (by decide)
  have ha : ¬('a' ≤ c) := fun ha => absurd (le_trans ha h9) (by decide)
  simp [pyIsAlpha, hA, ha]

lemma pyDigit_not_ws (c : Char) (h : pyIsDigit c = true) : pyWs c = false := by
  rcases (pyIsDigit_iff c).mp h with ⟨h0, _⟩
  have hne : ∀ d : Char, ¬('0' ≤ d) → c ≠ d := fun d hd he => hd (he ▸ h0)
  simp [pyWs, hne ' ' (by decide), hne '\t' (by decide), hne '\n' (by decide),
    hne '\r' (by decide), hne '\x0b' (by decide), hne '\x0c' (by decide)]

lemma pyDigit_ne_dash (c : Char) (h : pyIsDigit c = true) : c ≠ '-' := by
  intro he; subst he; exact absurd h (by decide)

lemma pyDigit_ne_slash (c : Char) (h : pyIsDigit c = true) : c ≠ '/' := by
  intro he; subst he; exact absurd h (by decide)

/-! ## Lemmas about `splitOnChar` -/

lemma splitOnChar_ne_nil (sep : Char) (l : List Char) : splitOnChar sep l ≠ [] := by
  induction l with
  | nil => simp [splitOnChar]
  | cons c r ih =>
    rw [splitOnChar]
    split
    · simp
    · cases hs : splitOnChar sep r with
      | nil => simp
      | cons p ps => simp [hs]

lemma splitOnChar_no_sep (sep : Char) (l : List Char) :
    ∀ p ∈ splitOnChar sep l, sep ∉ p := by
  induction l with
  | nil => intro p hp; simp [splitOnChar] at hp; simp [hp]
  | cons c r ih =>
    intro p hp
    rw [splitOnChar] at hp
    by_cases hc : c == sep
    · rw [if_pos hc, List.mem_cons] at hp
      rcases hp with hp | hp
      · simp [hp]
      · exact ih p hp
    · rw [if_neg hc] at hp
      cases hs : splitOnChar sep r with
      | nil => exact absurd hs (splitOnChar_ne_nil sep r)
      | cons q qs =>
        rw [hs, List.mem_cons] at hp
        rcases hp with hp | hp
        · subst hp
          intro hm
          rw [List.mem_cons] at hm
          rcases hm with hm | hm
          · exact hc (by simp [hm])
          · exact ih q (hs ▸ List.mem_cons_self q qs) hm
        · exact ih p (hs ▸ List.mem_cons_of_mem q hp)

lemma joinWith_splitOnChar (sep : Char) (l : List Char) :
    joinWith sep (splitOnChar sep l) = l := by
  induction l with
  | nil => rfl
  | cons c r ih =>
    rw [splitOnChar]
    by_cases hc : c == sep
    · rw [if_pos hc]
      have hcc : c = sep := by simpa using hc
      cases hs : splitOnChar sep r with
      | nil => exact absurd hs (splitOnChar_ne_nil sep r)
      | cons q qs =>
        rw [hs] at ih
        subst hcc
        simp [joinWith, ih]
    · rw [if_neg hc]
      cases hs : splitOnChar sep r with
      | nil => exact absurd hs (splitOnChar_ne_nil sep r)
      | cons q qs =>
        rw [hs] at ih
        cases qs with
        | nil => simpa [joinWith] using congrArg (c :: ·) ih
        | cons q2 qs2 => simpa [joinWith] using congrArg (c :: ·) ih

lemma splitOnChar_append_sep (sep : Char) (a b : List Char) (ha : sep ∉ a) :
    splitOnChar sep (a ++ sep :: b) = a :: splitOnChar sep b := by
  induction a with
  | nil => simp [splitOnChar]
  | cons c a' ih =>
    have hc : ¬(c == sep) := by
      intro h
      exact ha (by simp [show c = sep from by simpa using h])
    have ha' : sep ∉ a' := fun h => ha (List.mem_cons_of_mem c h)
    rw [List.cons_append, splitOnChar, if_neg hc, ih ha']

lemma splitOnChar_of_not_mem (sep : Char) (l : List Char) (h : sep ∉ l) :
    splitOnChar sep l = [l] := by
  induction l with
  | nil => rfl
  | cons c r ih =>
    have hc : ¬(c == sep) := by
      intro hcc
      exact h (by simp [show c = sep from by simpa using hcc])
    have hr : sep ∉ r := fun hm => h (List.mem_cons_of_mem c hm)
    rw [splitOnChar, if_neg hc, ih hr]

/-! ## Shape of error-free repaired zips -/

/-- The shapes a repaired zip can have when the repair recorded no reason:
five digits, five digits then a hyphen and four digits, or five digits with
a dangling hyphen. -/
def GoodZip (w : List Char) : Prop :=
  (w.length = 5 ∧ ∀ c ∈ w, pyIsDigit c = true) ∨
  (∃ a b, w = a ++ '-' :: b ∧ a.length = 5 ∧ (∀ c ∈ a, pyIsDigit c = true) ∧
    (b = [] ∨ (b.length = 4 ∧ ∀ c ∈ b, pyIsDigit c = true)))

lemma zipFilter_mem {l : List Char} {c : Char} (h : c ∈ zipFilter l) :
    pyIsDigit c = true ∨ c = '-' := by
  rcases List.mem_filter.mp h with ⟨_, hc⟩
  simp only [Bool.or_eq_true, beq_iff_eq] at hc
  exact hc

lemma zipFilter_eq_self {l : List Char} (h : ∀ c ∈ l, pyIsDigit c = true ∨ c = '-') :
    zipFilter l = l := by
  apply List.filter_eq_self.mpr
  intro c hc
  rcases h c hc with hd | hd <;> simp [hd]

lemma dash_not_mem_of_digits {l : List Char} (h : ∀ c ∈ l, pyIsDigit c = true) :
    '-' ∉ l := fun hm => pyDigit_ne_dash '-' (h '-' hm) rfl

lemma stage1_chars (st : String) (c0 : List Char)
    (hc : ∀ c ∈ c0, pyIsDigit c = true ∨ c = '-') :
    ∀ c ∈ (repairStage1 st c0).1, pyIsDigit c = true ∨ c = '-' := by
  intro c hcm
  rw [repairStage1] at hcm
  split at hcm
  · dsimp only at hcm
    rcases List.mem_append.mp hcm with hm | hm
    · exact hc c (List.take_subset 5 c0 hm)
    · rw [List.mem_cons] at hm
      rcases hm with hm | hm
      · exact Or.inr hm
      · exact hc c (List.drop_subset 5 c0 hm)
  · split at hcm
    · split at hcm
      · dsimp only at hcm
        rw [List.mem_cons] at hcm
        rcases hcm with hm | hm
        · exact Or.inl (by rw [hm]; decide)
        · exact hc c hm
      · dsimp only at hcm
        exact hc c hcm
    · dsimp only at hcm
      exact hc c hcm

lemma stage2_good (c1 : List Char)
    (hc : ∀ c ∈ c1, pyIsDigit c = true ∨ c = '-')
    (h : (repairStage2 c1).2 = []) : GoodZip (repairStage2 c1).1 := by
  rw [repairStage2] at h ⊢
  by_cases hdash : '-' ∈ c1
  · rw [if_pos hdash] at h ⊢
    have hjoin := joinWith_splitOnChar '-' c1
    have hnosep := splitOnChar_no_sep '-' c1
    cases hs : splitOnChar '-' c1 with
    | nil => exact absurd hs (splitOnChar_ne_nil '-' c1)
    | cons p0 ps =>
      cases ps with
      | nil => rw [hs] at h; simp at h
      | cons p1 ps2 =>
        cases ps2 with
        | nil =>
          rw [hs] at h hjoin hnosep
          dsimp only at h ⊢
          have hc1 : c1 = p0 ++ '-' :: p1 := by
            rw [← hjoin]; rfl
          have hp0d : ∀ c ∈ p0, pyIsDigit c = true := by
            intro c hcm
            rcases hc c (hc1 ▸ List.mem_append_left _ hcm) with hd | hd
            · exact hd
            · exact absurd (hd ▸ hcm) (hnosep p0 (List.mem_cons_self _ _))
          have hp1d : ∀ c ∈ p1, pyIsDigit c = true := by
            intro c hcm
            have : c ∈ c1 := hc1 ▸ List.mem_append_right _ (List.mem_cons_of_mem _ hcm)
            rcases hc c this with hd | hd
            · exact hd
            · exact absurd (hd ▸ hcm)
                (hnosep p1 (List.mem_cons_of_mem _ (List.mem_cons_self _ _)))
          by_cases h0 : p0.length = 5 ∧ p0.all pyIsDigit = true
          · rw [if_neg (not_not_intro h0)] at h ⊢
            by_cases h1 : p1 ≠ []
            · rw [if_pos h1] at h ⊢
              by_cases h14 : p1.length < 4
              · rw [if_pos h14] at h ⊢
                exact Or.inl ⟨h0.1, hp0d⟩
              · rw [if_neg h14] at h ⊢
                by_cases h2 : p1.length = 4 ∧ p1.all pyIsDigit = true
                · rw [if_neg (not_not_intro h2)] at h ⊢
                  exact Or.inr ⟨p0, p1, hc1, h0.1, hp0d, Or.inr ⟨h2.1, hp1d⟩⟩
                · rw [if_pos h2] at h; simp at h
            · rw [if_neg h1] at h ⊢
              push_neg at h1
              exact Or.inr ⟨p0, p1, hc1, h0.1, hp0d, Or.inl h1⟩
          · rw [if_pos h0] at h; simp at h
        | cons p2 ps3 => rw [hs] at h; simp at h
  · rw [if_neg hdash] at h ⊢
    by_cases h5 : c1.length = 5 ∧ c1.all pyIsDigit = true
    · rw [if_pos h5] at h ⊢
      refine Or.inl ⟨h5.1, ?_⟩
      intro c hcm
      exact (List.all_eq_true.mp h5.2) c hcm
    · rw [if_neg h5] at h; simp at h

/-- An error-free repair always yields a `GoodZip`. -/
lemma repair_good (st : String) (z : List Char) (h : (repairZip st z).2 = []) :
    GoodZip (repairZip st z).1 := by
  rw [repairZip] at h ⊢
  have h2 : (repairStage2 (repairStage1 st (zipFilter z)).1).2 = [] :=
    (List.append_eq_nil.mp h).2
  have hchars : ∀ c ∈ (repairStage1 st (zipFilter z)).1, pyIsDigit c = true ∨ c = '-' :=
    stage1_chars st (zipFilter z) (fun c hc => zipFilter_mem hc)
  exact stage2_good _ hchars h2

/-- A `GoodZip` is a fixed point of the repair and re-validates without
reasons. -/
lemma goodZip_fixed (st : String) (w : List Char) (h : GoodZip w) :
    repairZip st w = (w, []) := by
  rcases h with ⟨h5, hd⟩ | ⟨a, b, hw, ha5, had, hb⟩
  · have hfil : zipFilter w = w := zipFilter_eq_self (fun c hc => Or.inl (hd c hc))
    have hdash : '-' ∉ w := dash_not_mem_of_digits hd
    have hs1 : repairStage1 st w = (w, []) := by
      rw [repairStage1, if_neg, if_neg]
      · rintro ⟨h4, -⟩; rw [h5] at h4; exact absurd h4 (by decide)
      · rintro ⟨h6, -⟩; rw [h5] at h6; exact absurd h6 (by decide)
    have hs2 : repairStage2 w = (w, []) := by
      rw [repairStage2, if_neg hdash, if_pos ⟨h5, List.all_eq_true.mpr hd⟩]
    rw [repairZip, hfil, hs1, hs2]
    rfl
  · have hmem : ∀ c ∈ w, pyIsDigit c = true ∨ c = '-' := by
      intro c hc
      rw [hw] at hc
      rcases List.mem_append.mp hc with hm | hm
      · exact Or.inl (had c hm)
      · rw [List.mem_cons] at hm
        rcases hm with hm | hm
        · exact Or.inr hm
        · rcases hb with hb | hb
          · rw [hb] at hm; simp at hm
          · exact Or.inl (hb.2 c hm)
    have hfil : zipFilter w = w := zipFilter_eq_self hmem
    have hdash : '-' ∈ w := by
      rw [hw]; exact List.mem_append_right _ (List.mem_cons_self _ _)
    have hs1 : repairStage1 st w = (w, []) := by
      rw [repairStage1, if_neg, if_neg]
      · rintro ⟨-, hnd⟩; exact hnd hdash
      · rintro ⟨-, hnd⟩; exact hnd hdash
    have hadash : '-' ∉ a := dash_not_mem_of_digits had
    have hsplit : splitOnChar '-' w = [a, b] := by
      rw [hw, splitOnChar_append_sep '-' a b hadash]
      congr 1
      rcases hb with hb | hb
      · rw [hb]; rfl
      · exact splitOnChar_of_not_mem '-' b (dash_not_mem_of_digits hb.2)
    have hs2 : repairStage2 w = (w, []) := by
      rw [repairStage2, if_pos hdash, hsplit]
      dsimp only
      rw [if_neg (not_not_intro ⟨ha5, List.all_eq_true.mpr had⟩)]
      rcases hb with hb | hb
      · rw [if_neg (not_not_intro hb)]
      · have hb4 : b ≠ [] := by
          intro hn; rw [hn] at hb; exact absurd hb.1 (by decide)
        rw [if_pos hb4, if_neg (by rw [hb.1]; decide),
          if_neg (not_not_intro ⟨hb.1, List.all_eq_true.mpr hb.2⟩)]
    rw [repairZip, hfil, hs1, hs2]
    rfl

/-! ## Validator branch lemmas -/

lemma validate_canadian (p : AddressParts) (h : p.state ∈ canadianProvinces) :
    validate_and_fix_address p =
      (p, false, zipErrs p ++ ["Non-US address (Canadian province: " ++ p.state ++ ")"]) := by
  rw [validate_and_fix_address, if_pos h]

lemma validate_alpha (p : AddressParts) (h1 : p.state ∉ canadianProvinces)
    (h2 : zipFixed p ≠ [] ∧ (zipFixed p).any pyIsAlpha = true) :
    validate_and_fix_address p =
      (p, false, zipErrs p ++ ["Canadian/non-US postal code: " ++ zipStr p]) := by
  rw [validate_and_fix_address, if_neg h1, if_pos h2]

lemma validate_normal (p : AddressParts) (h1 : p.state ∉ canadianProvinces)
    (h2 : ¬(zipFixed p ≠ [] ∧ (zipFixed p).any pyIsAlpha = true)) :
    validate_and_fix_address p =
      (⟨p.street, p.city, p.state, zipStr p, ""⟩,
       (fullOk p || (countyOk p && (p.state != ""))) && (zipErrs p ++ missingReasons p).isEmpty,
       zipErrs p ++ missingReasons p) := by
  rw [validate_and_fix_address, if_neg h1, if_neg h2]

lemma countyOk_and_state (p : AddressParts) :
    (countyOk p && (p.state != "")) = countyOk p := by
  rw [countyOk]
  cases hb : (p.state != "") <;> cases haa : (p.county != "") <;>
    cases hcc : (zipStr p != "") <;> simp [hb, haa, hcc]

lemma string_mk_eq_empty_iff (l : List Char) : String.mk l = "" ↔ l = [] := by
  constructor
  · intro h; have := congrArg String.data h; simpa using this
  · intro h; rw [h]

lemma any_alpha_false_of_digits (l : List Char) (h : ∀ c ∈ l, pyIsDigit c = true) :
    l.any pyIsAlpha = false := by
  rw [List.any_eq_false]
  intro c hc
  simp [pyDigit_not_alpha c (h c hc)]

/-! ## Claim C10 -/

/-- Claim C10 (confirmed): for every input, the street, city and state
fields of the components returned by `validate_and_fix_address` equal the
corresponding input fields; only the zip field is ever rewritten. -/
theorem C10_frame_only_zip_rewritten (p : AddressParts) :
    (validate_and_fix_address p).1.street = p.street ∧
    (validate_and_fix_address p).1.city = p.city ∧
    (validate_and_fix_address p).1.state = p.state := by
  rw [validate_and_fix_address]
  split
  · exact ⟨rfl, rfl, rfl⟩
  · split
    · exact ⟨rfl, rfl, rfl⟩
    · exact ⟨rfl, rfl, rfl⟩

/-! ## Claim C9 -/

/-- Claim C9 (confirmed): whenever `validate_and_fix_address` rejects a
record through one of the two short-circuit branches (Canadian province
state, or an alphabetic character in the repaired zip), the components it
returns are the original input components unchanged — any zip repair that
was already computed is discarded. -/
theorem C9_short_circuit_returns_input (p : AddressParts)
    (h : p.state ∈ canadianProvinces ∨
      (zipFixed p ≠ [] ∧ (zipFixed p).any pyIsAlpha = true)) :
    (validate_and_fix_address p).1 = p ∧ (validate_and_fix_address p).2.1 = false := by
  by_cases hc : p.state ∈ canadianProvinces
  · rw [validate_canadian p hc]
    exact ⟨rfl, rfl⟩
  · have h2 := h.resolve_left hc
    rw [validate_alpha p hc h2]
    exact ⟨rfl, rfl⟩

/-- Witness for C9: the Ontario record has its zip `334051` internally
repaired to `33405`, but the returned components keep the original
`334051`. -/
theorem C9_witness :
    ((⟨"1 MAIN ST", "TORONTO", "ON", "334051", ""⟩ : AddressParts).state ∈ canadianProvinces ∨
      (zipFixed ⟨"1 MAIN ST", "TORONTO", "ON", "334051", ""⟩ ≠ [] ∧
        (zipFixed ⟨"1 MAIN ST", "TORONTO", "ON", "334051", ""⟩).any pyIsAlpha = true)) ∧
    ((validate_and_fix_address ⟨"1 MAIN ST", "TORONTO", "ON", "334051", ""⟩).1 =
        ⟨"1 MAIN ST", "TORONTO", "ON", "334051", ""⟩ ∧
      (validate_and_fix_address ⟨"1 MAIN ST", "TORONTO", "ON", "334051", ""⟩).2.1 = false) :=
  ⟨Or.inl (by decide),
   C9_short_circuit_returns_input ⟨"1 MAIN ST", "TORONTO", "ON", "334051", ""⟩
     (Or.inl (by decide))⟩

/-! ## Claim C6 -/

/-- Claim C6 (confirmed): a state equal to one of the thirteen Canadian
province codes is rejected immediately, regardless of the zip value: the
validity flag is false, the reason list ends with the Canadian-province
reason (so it contains a reason mentioning `Canadian`), and the returned
components are the untouched input — no sufficiency check contributes any
further reason. -/
theorem C6_canadian_short_circuit (p : AddressParts)
    (h : p.state ∈ canadianProvinces) :
    (validate_and_fix_address p).2.1 = false ∧
    (validate_and_fix_address p).2.2 =
      zipErrs p ++ ["Non-US address (Canadian province: " ++ p.state ++ ")"] ∧
    ("Non-US address (Canadian province: " ++ p.state ++ ")") ∈
      (validate_and_fix_address p).2.2 ∧
    (validate_and_fix_address p).1 = p := by
  rw [validate_canadian p h]
  exact ⟨rfl, rfl, List.mem_append_right _ (List.mem_cons_self _ _), rfl⟩

/-- Witness for C6 at the spec example: state `ON` with an ordinary zip. -/
theorem C6_witness :
    ((⟨"10 KING ST", "OTTAWA", "ON", "33405", ""⟩ : AddressParts).state ∈ canadianProvinces) ∧
    ((validate_and_fix_address ⟨"10 KING ST", "OTTAWA", "ON", "33405", ""⟩).2.1 = false ∧
      (validate_and_fix_address ⟨"10 KING ST", "OTTAWA", "ON", "33405", ""⟩).2.2 =
        zipErrs ⟨"10 KING ST", "OTTAWA", "ON", "33405", ""⟩ ++
          ["Non-US address (Canadian province: " ++
            (⟨"10 KING ST", "OTTAWA", "ON", "33405", ""⟩ : AddressParts).state ++ ")"] ∧
      ("Non-US address (Canadian province: " ++
          (⟨"10 KING ST", "OTTAWA", "ON", "33405", ""⟩ : AddressParts).state ++ ")") ∈
        (validate_and_fix_address ⟨"10 KING ST", "OTTAWA", "ON", "33405", ""⟩).2.2 ∧
      (validate_and_fix_address ⟨"10 KING ST", "OTTAWA", "ON", "33405", ""⟩).1 =
        ⟨"10 KING ST", "OTTAWA", "ON", "33405", ""⟩) :=
  ⟨by decide, C6_canadian_short_circuit ⟨"10 KING ST", "OTTAWA", "ON", "33405", ""⟩ (by decide)⟩

/-! ## Claim C2 -/

lemma digits_of_filter_no_dash {z : List Char} (hnd : '-' ∉ zipFilter z) :
    ∀ c ∈ zipFilter z, pyIsDigit c = true := by
  intro c hc
  rcases zipFilter_mem hc with hd | hd
  · exact hd
  · exact absurd (hd ▸ hc) hnd

lemma zipStage_fourFL (p : AddressParts)
    (h4 : (zipFilter p.zip_code.data).length = 4)
    (hnd : '-' ∉ zipFilter p.zip_code.data)
    (hz : p.zip_code ≠ "") (hFL : p.state = "FL") :
    zipStage p = ('3' :: zipFilter p.zip_code.data, []) := by
  have hdig := digits_of_filter_no_dash hnd
  have hs1 : repairStage1 p.state (zipFilter p.zip_code.data) =
      ('3' :: zipFilter p.zip_code.data, []) := by
    rw [repairStage1, if_neg, if_pos ⟨h4, hnd⟩, if_pos hFL]
    rintro ⟨h6, -⟩; rw [h4] at h6; exact absurd h6 (by decide)
  have hnd3 : '-' ∉ '3' :: zipFilter p.zip_code.data := by
    intro hm
    rw [List.mem_cons] at hm
    rcases hm with hm | hm
    · exact absurd hm (by decide)
    · exact hnd hm
  have hs2 : repairStage2 ('3' :: zipFilter p.zip_code.data) =
      ('3' :: zipFilter p.zip_code.data, []) := by
    rw [repairStage2, if_neg hnd3, if_pos]
    constructor
    · simp [h4]
    · apply List.all_eq_true.mpr
      intro c hc
      rw [List.mem_cons] at hc
      rcases hc with hc | hc
      · rw [hc]; decide
      · exact hdig c hc
  rw [zipStage, if_neg hz, repairZip, hs1]
  dsimp only
  rw [hs2]
  rfl

lemma zipStage_fourOther (p : AddressParts)
    (h4 : (zipFilter p.zip_code.data).length = 4)
    (hnd : '-' ∉ zipFilter p.zip_code.data)
    (hz : p.zip_code ≠ "") (hnFL : p.state ≠ "FL") :
    zipStage p = (zipFilter p.zip_code.data,
      ["Invalid 4-digit zip: " ++ String.mk (zipFilter p.zip_code.data),
       "Invalid zip format: " ++ String.mk (zipFilter p.zip_code.data)]) := by
  have hs1 : repairStage1 p.state (zipFilter p.zip_code.data) =
      (zipFilter p.zip_code.data,
       ["Invalid 4-digit zip: " ++ String.mk (zipFilter p.zip_code.data)]) := by
    rw [repairStage1, if_neg, if_pos ⟨h4, hnd⟩, if_neg hnFL]
    rintro ⟨h6, -⟩; rw [h4] at h6; exact absurd h6 (by decide)
  have hs2 : repairStage2 (zipFilter p.zip_code.data) =
      (zipFilter p.zip_code.data,
       ["Invalid zip format: " ++ String.mk (zipFilter p.zip_code.data)]) := by
    rw [repairStage2, if_neg hnd, if_neg]
    rintro ⟨h5, -⟩; rw [h4] at h5; exact absurd h5 (by decide)
  rw [zipStage, if_neg hz, repairZip, hs1]
  dsimp only
  rw [hs2]
  rfl

/-- Claim C2 (confirmed): when the cleaned zip is exactly four digits with
no hyphen, a `FL` state gets `3` prepended (and the repair records no
reason), while any other state leaves the zip uncorrected (the returned zip
is the cleaned value, or the untouched input value when a Canadian state
short-circuits first), records the reason `Invalid 4-digit zip: <value>`,
and the record is invalid. -/
theorem C2_four_digit_zip (p : AddressParts)
    (h4 : (zipFilter p.zip_code.data).length = 4)
    (hnd : '-' ∉ zipFilter p.zip_code.data) :
    (p.state = "FL" →
      zipErrs p = [] ∧
      (validate_and_fix_address p).1.zip_code =
        String.mk ('3' :: zipFilter p.zip_code.data)) ∧
    (p.state ≠ "FL" →
      ("Invalid 4-digit zip: " ++ String.mk (zipFilter p.zip_code.data)) ∈
        (validate_and_fix_address p).2.2 ∧
      (validate_and_fix_address p).2.1 = false ∧
      ((validate_and_fix_address p).1.zip_code = String.mk (zipFilter p.zip_code.data) ∨
       (validate_and_fix_address p).1.zip_code = p.zip_code)) := by
  have hz : p.zip_code ≠ "" := by
    intro he
    rw [he] at h4
    exact absurd h4 (by decide)
  constructor
  · intro hFL
    have hst := zipStage_fourFL p h4 hnd hz hFL
    have hzf : zipFixed p = '3' :: zipFilter p.zip_code.data := by
      rw [zipFixed, hst]
    have hze : zipErrs p = [] := by rw [zipErrs, hst]
    refine ⟨hze, ?_⟩
    have hcan : p.state ∉ canadianProvinces := by rw [hFL]; decide
    have halpha : ¬(zipFixed p ≠ [] ∧ (zipFixed p).any pyIsAlpha = true) := by
      rintro ⟨-, hany⟩
      rw [hzf] at hany
      have : ('3' :: zipFilter p.zip_code.data).any pyIsAlpha = false := by
        apply any_alpha_false_of_digits
        intro c hc
        rw [List.mem_cons] at hc
        rcases hc with hc | hc
        · rw [hc]; decide
        · exact digits_of_filter_no_dash hnd c hc
      rw [this] at hany
      exact absurd hany (by decide)
    rw [validate_normal p hcan halpha]
    dsimp only
    rw [zipStr, hzf]
  · intro hnFL
    have hst := zipStage_fourOther p h4 hnd hz hnFL
    have hzf : zipFixed p = zipFilter p.zip_code.data := by
      rw [zipFixed, hst]
    have hze : zipErrs p =
        ["Invalid 4-digit zip: " ++ String.mk (zipFilter p.zip_code.data),
         "Invalid zip format: " ++ String.mk (zipFilter p.zip_code.data)] := by
      rw [zipErrs, hst]
    have hmem0 : ("Invalid 4-digit zip: " ++ String.mk (zipFilter p.zip_code.data)) ∈
        zipErrs p := by
      rw [hze]; exact List.mem_cons_self _ _
    by_cases hcan : p.state ∈ canadianProvinces
    · rw [validate_canadian p hcan]
      exact ⟨List.mem_append_left _ hmem0, rfl, Or.inr rfl⟩
    · have halpha : ¬(zipFixed p ≠ [] ∧ (zipFixed p).any pyIsAlpha = true) := by
        rintro ⟨-, hany⟩
        rw [hzf] at hany
        rw [any_alpha_false_of_digits _ (digits_of_filter_no_dash hnd)] at hany
        exact absurd hany (by decide)
      rw [validate_normal p hcan halpha]
      dsimp only
      refine ⟨List.mem_append_left _ hmem0, ?_, Or.inl (by rw [zipStr, hzf])⟩
      have : (zipErrs p ++ missingReasons p).isEmpty = false := by
        rw [hze]; rfl
      rw [this, Bool.and_false]

/-- Witness for C2: zip `5678` becomes `35678` under `FL` and is flagged
`Invalid 4-digit zip: 5678` (record invalid) under `TX`. -/
theorem C2_witness :
    ((zipFilter (String.data "5678")).length = 4 ∧ '-' ∉ zipFilter (String.data "5678")) ∧
    (validate_and_fix_address ⟨"1 A ST", "MIAMI", "FL", "5678", ""⟩).1.zip_code = "35678" ∧
    ("Invalid 4-digit zip: 5678") ∈
      (validate_and_fix_address ⟨"1 A ST", "MIAMI", "TX", "5678", ""⟩).2.2 ∧
    (validate_and_fix_address ⟨"1 A ST", "MIAMI", "TX", "5678", ""⟩).2.1 = false := by
  refine ⟨by decide, ?_, ?_, ?_⟩
  · have h := (C2_four_digit_zip ⟨"1 A ST", "MIAMI", "FL", "5678", ""⟩
      (by decide) (by decide)).1 rfl
    exact h.2.trans (by decide)
  · have h := (C2_four_digit_zip ⟨"1 A ST", "MIAMI", "TX", "5678", ""⟩
      (by decide) (by decide)).2 (by decide)
    have he : String.mk (zipFilter (String.data "5678")) = "5678" := by decide
    exact he ▸ h.1
  · exact ((C2_four_digit_zip ⟨"1 A ST", "MIAMI", "TX", "5678", ""⟩
      (by decide) (by decide)).2 (by decide)).2.1

/-! ## Claim C1 -/

/-- Counterexample to claim C1 as stated: the record with street
`123 MAIN ST`, empty city, state `FL`, zip `33405` and county hint
`PALM BEACH` is not short-circuited, satisfies the county-fallback
sufficiency condition (b), and its zip repair produced no reasons — yet
`validate_and_fix_address` marks it invalid (a `Missing city` reason is
recorded because street is non-empty). -/
theorem C1_counterexample :
    ((⟨"123 MAIN ST", "", "FL", "33405", "PALM BEACH"⟩ : AddressParts).state ∉
        canadianProvinces ∧
      ¬(zipFixed ⟨"123 MAIN ST", "", "FL", "33405", "PALM BEACH"⟩ ≠ [] ∧
         (zipFixed ⟨"123 MAIN ST", "", "FL", "33405", "PALM BEACH"⟩).any pyIsAlpha = true) ∧
      countyOk ⟨"123 MAIN ST", "", "FL", "33405", "PALM BEACH"⟩ = true ∧
      zipErrs ⟨"123 MAIN ST", "", "FL", "33405", "PALM BEACH"⟩ = []) ∧
    (validate_and_fix_address ⟨"123 MAIN ST", "", "FL", "33405", "PALM BEACH"⟩).2.1 =
      false := by
  decide

/-- Claim C1 as amended: a record is marked valid iff it is not
short-circuited by the two non-US checks, either the full-address condition
(a) or the county-fallback condition (b) holds, AND the whole reasons list
is empty — the zip-repair reasons and also the missing-field reasons, which
are appended whenever the full-address check fails except when street is
empty and a county hint is present.  In particular the record with empty
street and city, county hint, state `FL` and zip `33405` is valid. -/
theorem C1_amended_validity :
    (∀ p : AddressParts,
      (validate_and_fix_address p).2.1 = true ↔
        (p.state ∉ canadianProvinces ∧
         ¬(zipFixed p ≠ [] ∧ (zipFixed p).any pyIsAlpha = true) ∧
         (fullOk p = true ∨ countyOk p = true) ∧
         zipErrs p = [] ∧ missingReasons p = [])) ∧
    (validate_and_fix_address ⟨"", "", "FL", "33405", "PALM BEACH"⟩).2.1 = true := by
  constructor
  · intro p
    by_cases hc : p.state ∈ canadianProvinces
    · rw [validate_canadian p hc]
      simp [hc]
    · by_cases ha : zipFixed p ≠ [] ∧ (zipFixed p).any pyIsAlpha = true
      · rw [validate_alpha p hc ha]
        constructor
        · intro h; exact absurd h (by simp)
        · rintro ⟨-, hna, -⟩; exact absurd ha hna
      · rw [validate_normal p hc ha]
        dsimp only
        rw [countyOk_and_state, Bool.and_eq_true, Bool.or_eq_true, List.isEmpty_iff,
          List.append_eq_nil]
        constructor
        · rintro ⟨hor, hze, hme⟩
          exact ⟨hc, ha, hor, hze, hme⟩
        · rintro ⟨-, -, hor, hze, hme⟩
          exact ⟨hor, hze, hme⟩
  · decide

/-- Witness for C1 (amended): the equivalence instantiated at the
county-fallback record of the spec example. -/
theorem C1_witness :
    (validate_and_fix_address ⟨"", "", "FL", "33405", "BROWARD"⟩).2.1 = true ↔
      ((⟨"", "", "FL", "33405", "BROWARD"⟩ : AddressParts).state ∉ canadianProvinces ∧
       ¬(zipFixed ⟨"", "", "FL", "33405", "BROWARD"⟩ ≠ [] ∧
          (zipFixed ⟨"", "", "FL", "33405", "BROWARD"⟩).any pyIsAlpha = true) ∧
       (fullOk ⟨"", "", "FL", "33405", "BROWARD"⟩ = true ∨
        countyOk ⟨"", "", "FL", "33405", "BROWARD"⟩ = true) ∧
       zipErrs ⟨"", "", "FL", "33405", "BROWARD"⟩ = [] ∧
       missingReasons ⟨"", "", "FL", "33405", "BROWARD"⟩ = []) :=
  C1_amended_validity.1 ⟨"", "", "FL", "33405", "BROWARD"⟩

/-! ## Claim C8 -/

/-- Counterexample to claim C8 as stated: a record accepted through the
county fallback normalizes to components without the county hint, and
re-validating those components yields the SAME components but is no longer
valid — `validate(validate(x).normalized)` is not "still valid". -/
theorem C8_counterexample :
    (validate_and_fix_address ⟨"", "", "FL", "33133", "DADE"⟩).2.1 = true ∧
    (validate_and_fix_address
        ((validate_and_fix_address ⟨"", "", "FL", "33133", "DADE"⟩).1)).1 =
      (validate_and_fix_address ⟨"", "", "FL", "33133", "DADE"⟩).1 ∧
    (validate_and_fix_address
        ((validate_and_fix_address ⟨"", "", "FL", "33133", "DADE"⟩).1)).2.1 = false := by
  decide

/-- Claim C8 as amended: for every record accepted by
`validate_and_fix_address`, re-validating the normalized components returns
components equal to them (no further changes, repaired zips re-validate as
already correct); the re-validated record is still VALID when the original
was accepted through the full-address path (street and city non-empty),
while county-fallback acceptances re-validate as invalid because the county
hint is not part of the normalized components. -/
theorem C8_amended_idempotence (p : AddressParts)
    (h : (validate_and_fix_address p).2.1 = true) :
    (validate_and_fix_address ((validate_and_fix_address p).1)).1 =
      (validate_and_fix_address p).1 ∧
    (p.street ≠ "" → p.city ≠ "" →
      (validate_and_fix_address ((validate_and_fix_address p).1)).2.1 = true) := by
  by_cases hc : p.state ∈ canadianProvinces
  · rw [validate_canadian p hc] at h; exact absurd h (by simp)
  by_cases ha : zipFixed p ≠ [] ∧ (zipFixed p).any pyIsAlpha = true
  · rw [validate_alpha p hc ha] at h; exact absurd h (by simp)
  rw [validate_normal p hc ha] at h ⊢
  dsimp only at h ⊢
  rw [Bool.and_eq_true] at h
  obtain ⟨hval, hemp⟩ := h
  rw [List.isEmpty_iff, List.append_eq_nil] at hemp
  obtain ⟨hze, hme⟩ := hemp
  rw [Bool.or_eq_true] at hval
  have hzs : (zipStr p != "") = true ∧ (p.state != "") = true := by
    rcases hval with hf | hcf
    · rw [fullOk] at hf
      simp only [Bool.and_eq_true] at hf
      exact ⟨hf.2, hf.1.2⟩
    · simp only [Bool.and_eq_true] at hcf
      rcases hcf with ⟨hco, hst⟩
      rw [countyOk] at hco
      simp only [Bool.and_eq_true] at hco
      exact ⟨hco.2, hst⟩
  have hzne : zipFixed p ≠ [] := by
    intro hnil
    have hzz : zipStr p = "" := by rw [zipStr, hnil]
    have h1 := hzs.1
    rw [hzz] at h1
    exact absurd h1 (by decide)
  have hpz : p.zip_code ≠ "" := by
    intro he
    apply hzne
    rw [zipFixed, zipStage, if_pos he, he]
  have hrep : (repairZip p.state p.zip_code.data).2 = [] := by
    have hh : zipStage p = repairZip p.state p.zip_code.data := by
      rw [zipStage, if_neg hpz]
    rw [zipErrs, hh] at hze
    exact hze
  have hgood : GoodZip (zipFixed p) := by
    have hh : zipFixed p = (repairZip p.state p.zip_code.data).1 := by
      rw [zipFixed, zipStage, if_neg hpz]
    rw [hh]
    exact repair_good _ _ hrep
  have hzne' : zipStr p ≠ "" := by
    intro he
    rw [zipStr, string_mk_eq_empty_iff] at he
    exact hzne he
  have hzsn : zipStage (⟨p.street, p.city, p.state, zipStr p, ""⟩ : AddressParts) =
      (zipFixed p, []) := by
    rw [zipStage]
    dsimp only
    rw [if_neg hzne']
    show repairZip p.state (zipFixed p) = (zipFixed p, [])
    exact goodZip_fixed p.state (zipFixed p) hgood
  have hcn : (⟨p.street, p.city, p.state, zipStr p, ""⟩ : AddressParts).state ∉
      canadianProvinces := hc
  have hzfn : zipFixed (⟨p.street, p.city, p.state, zipStr p, ""⟩ : AddressParts) =
      zipFixed p := by
    rw [zipFixed, hzsn]
  have han : ¬(zipFixed (⟨p.street, p.city, p.state, zipStr p, ""⟩ : AddressParts) ≠ [] ∧
      (zipFixed (⟨p.street, p.city, p.state, zipStr p, ""⟩ : AddressParts)).any pyIsAlpha =
        true) := by
    rw [hzfn]
    exact ha
  have hzstrn : zipStr (⟨p.street, p.city, p.state, zipStr p, ""⟩ : AddressParts) =
      zipStr p := by
    rw [zipStr, hzfn]
    rfl
  rw [validate_normal _ hcn han]
  dsimp only
  constructor
  · rw [hzstrn]
  · intro hstreet hcity
    have hfn : fullOk ⟨p.street, p.city, p.state, zipStr p, ""⟩ = true := by
      rw [fullOk, hzstrn]
      dsimp only
      simp only [Bool.and_eq_true, bne_iff_ne, ne_eq]
      refine ⟨⟨⟨hstreet, hcity⟩, ?_⟩, ?_⟩
      · simpa using hzs.2
      · simpa using hzs.1
    have hmn : missingReasons ⟨p.street, p.city, p.state, zipStr p, ""⟩ = [] := by
      rw [missingReasons, if_neg, if_pos hfn]
      rintro ⟨hs, -⟩
      exact hstreet hs
    have hzen : zipErrs ⟨p.street, p.city, p.state, zipStr p, ""⟩ = [] := by
      rw [zipErrs, hzsn]
    simp [hfn, hzen, hmn]

/-- Witness for C8 (amended) at a full-address record: it stays unchanged
AND valid. -/
theorem C8_witness :
    (validate_and_fix_address ⟨"1 OAK AVE", "TAMPA", "FL", "33605", ""⟩).2.1 = true ∧
    ((validate_and_fix_address
        ((validate_and_fix_address ⟨"1 OAK AVE", "TAMPA", "FL", "33605", ""⟩).1)).1 =
      (validate_and_fix_address ⟨"1 OAK AVE", "TAMPA", "FL", "33605", ""⟩).1 ∧
     ((⟨"1 OAK AVE", "TAMPA", "FL", "33605", ""⟩ : AddressParts).street ≠ "" →
      (⟨"1 OAK AVE", "TAMPA", "FL", "33605", ""⟩ : AddressParts).city ≠ "" →
      (validate_and_fix_address
          ((validate_and_fix_address ⟨"1 OAK AVE", "TAMPA", "FL", "33605", ""⟩).1)).2.1 =
        true)) :=
  ⟨by decide,
   C8_amended_idempotence ⟨"1 OAK AVE", "TAMPA", "FL", "33605", ""⟩ (by decide)⟩

/-! ## Claim C7 -/

/-- Claim C7 (confirmed): the rule-based decomposer is a total function
(witnessed by the definition itself) that returns exactly the four string
fields; a `none` (non-string) or empty-string input yields all-empty
components through the guard at line 98. -/
theorem C7_decomposer_total (x : Option String) :
    (∃ a b c d : String, parse_address_regex x = ⟨a, b, c, d, ""⟩) ∧
    ((x = none ∨ x = some "") → parse_address_regex x = ⟨"", "", "", "", ""⟩) := by
  constructor
  · cases x with
    | none => exact ⟨"", "", "", "", rfl⟩
    | some s =>
      by_cases hs : s = ""
      · refine ⟨"", "", "", "", ?_⟩
        rw [parse_address_regex]
        rw [if_pos hs]
      · refine ⟨String.mk (cleanField (commaSplitRegex (regexRemainder s)).1),
          String.mk (cleanField (commaSplitRegex (regexRemainder s)).2),
          String.mk (regexStateTok s), String.mk (regexZipTok s), ?_⟩
        rw [parse_address_regex, if_neg hs]
  · intro hx
    rcases hx with hx | hx <;> rw [hx]
    · rfl
    · rw [parse_address_regex]
      rw [if_pos rfl]

/-- Witness for C7 at the guarded input. -/
theorem C7_witness :
    ((none : Option String) = none ∨ (none : Option String) = some "") ∧
    parse_address_regex none = ⟨"", "", "", "", ""⟩ :=
  ⟨Or.inl rfl, (C7_decomposer_total none).2 (Or.inl rfl)⟩

/-! ## Toolkit lemmas for the decomposer proofs -/

lemma my_dropWhile_append (p : Char → Bool) (l1 l2 : List Char) :
    (l1 ++ l2).dropWhile p =
      if (l1.dropWhile p).isEmpty then l2.dropWhile p else l1.dropWhile p ++ l2 := by
  induction l1 with
  | nil => simp
  | cons c l1' ih =>
    by_cases hc : p c
    · simp only [List.cons_append, List.dropWhile_cons, hc, if_true, ih]
    · simp [List.dropWhile_cons, hc]

lemma dropWhile_eq_self_of_all (p : Char → Bool) (l : List Char)
    (h : ∀ c ∈ l, p c = false) : l.dropWhile p = l := by
  cases l with
  | nil => rfl
  | cons c r => simp [List.dropWhile_cons, h c (List.mem_cons_self c r)]

lemma stripRight_eq_self_of_all (l : List Char) (h : ∀ c ∈ l, pyWs c = false) :
    stripRight l = l := by
  rw [stripRight, dropWhile_eq_self_of_all, List.reverse_reverse]
  intro c hc
  exact h c (List.mem_reverse.mp hc)

lemma stripRight_append (l1 l2 : List Char) :
    stripRight (l1 ++ l2) =
      if stripRight l2 = [] then stripRight l1 else l1 ++ stripRight l2 := by
  rw [stripRight, List.reverse_append l1 l2, my_dropWhile_append]
  have hiff : stripRight l2 = [] ↔ (l2.reverse.dropWhile pyWs).isEmpty = true := by
    rw [stripRight, List.isEmpty_iff, List.reverse_eq_nil_iff]
  by_cases h : (l2.reverse.dropWhile pyWs).isEmpty = true
  · rw [if_pos h, if_pos (hiff.mpr h)]
    rfl
  · rw [if_neg h, if_neg (fun hh => h (hiff.mp hh)), List.reverse_append]
    simp [stripRight]

lemma stripRight_leading (l : List Char) : stripRight l <+: l := by
  have hsuf : l.reverse.dropWhile pyWs <:+ l.reverse := List.dropWhile_suffix pyWs
  obtain ⟨t, ht⟩ := hsuf
  refine ⟨t.reverse, ?_⟩
  have := congrArg List.reverse ht
  rw [List.reverse_append] at this
  simpa [stripRight] using this

lemma stripLeft_cons_not_ws (c : Char) (l : List Char) (h : pyWs c = false) :
    stripLeft (c :: l) = c :: l := by
  rw [stripLeft, List.dropWhile_cons, h]
  rfl

lemma collapse_cons_not_ws (a : Char) (l : List Char) (h : pyWs a = false) :
    collapseWs (a :: l) = a :: collapseWs l := by
  cases l with
  | nil => simp [collapseWs, h]
  | cons b r =>
    rw [collapseWs]
    rw [if_neg (by simp [h]), if_neg (by simp [h])]

lemma collapse_append_left (d l : List Char) (hd : ∀ c ∈ d, pyWs c = false) :
    collapseWs (d ++ l) = d ++ collapseWs l := by
  induction d with
  | nil => rfl
  | cons c d' ih =>
    rw [List.cons_append, collapse_cons_not_ws c _ (hd c (List.mem_cons_self c d')),
      ih (fun x hx => hd x (List.mem_cons_of_mem c hx))]
    rfl

lemma collapse_ws_head (l : List Char) :
    ∀ a, pyWs a = true → ∃ w, collapseWs (a :: l) = ' ' :: w := by
  induction l with
  | nil =>
    intro a ha
    exact ⟨[], by rw [collapseWs, if_pos ha]⟩
  | cons b r ih =>
    intro a ha
    by_cases hb : pyWs b
    · obtain ⟨w, hw⟩ := ih b hb
      exact ⟨w, by rw [collapseWs, if_pos (by simp [ha, hb]), hw]⟩
    · refine ⟨collapseWs (b :: r), ?_⟩
      rw [collapseWs, if_neg (by simp [hb]), if_pos ha]

lemma map_eq_self_of_fix (f : Char → Char) (l : List Char) (h : ∀ c ∈ l, f c = c) :
    l.map f = l := by
  induction l with
  | nil => rfl
  | cons c r ih =>
    rw [List.map_cons, h c (List.mem_cons_self c r),
      ih (fun x hx => h x (List.mem_cons_of_mem c hx))]

lemma takeDigits_exact (d : List Char) :
    ∀ (n : Nat) (v : List Char), d.length = n → (∀ c ∈ d, pyIsDigit c = true) →
      takeDigits n (d ++ v) = some (d, v) := by
  induction d with
  | nil =>
    intro n v hn _
    rw [← hn]
    rfl
  | cons c d' ih =>
    intro n v hn hd
    cases n with
    | zero => simp at hn
    | succ m =>
      rw [List.cons_append, takeDigits, if_pos (hd c (List.mem_cons_self c d')),
        ih m v (by simpa using hn) (fun x hx => hd x (List.mem_cons_of_mem c hx))]

/-! ## Claim C3: where the zip token is found -/

lemma stripRight_cons_shape (c : Char) (l : List Char) (h : stripRight (c :: l) ≠ []) :
    ∃ u, stripRight (c :: l) = c :: u := by
  obtain ⟨t, ht⟩ := stripRight_leading (c :: l)
  cases hsr : stripRight (c :: l) with
  | nil => exact absurd hsr h
  | cons x xs =>
    rw [hsr, List.cons_append] at ht
    injection ht with h1 h2
    subst h1
    exact ⟨xs, rfl⟩

lemma slashToComma_fix_digits (d : List Char) (hd : ∀ c ∈ d, pyIsDigit c = true) :
    d.map slashToComma = d := by
  apply map_eq_self_of_fix
  intro c hc
  rw [slashToComma, if_neg]
  simp [pyDigit_ne_slash c (hd c hc)]

lemma cleanAddr_digit_head (d r : List Char) (hne : d ≠ [])
    (hd : ∀ c ∈ d, pyIsDigit c = true) :
    ∃ v, cleanAddr (String.mk (d ++ ' ' :: r)) = d ++ v ∧
      (v = [] ∨ ∃ w, v = ' ' :: w) := by
  have hdw : ∀ c ∈ d, pyWs c = false := fun c hc => pyDigit_not_ws c (hd c hc)
  obtain ⟨c0, d', hd0⟩ : ∃ c0 d', d = c0 :: d' := by
    cases d with
    | nil => exact absurd rfl hne
    | cons a b => exact ⟨a, b, rfl⟩
  have hdata : (String.mk (d ++ ' ' :: r)).data = d ++ ' ' :: r := rfl
  have hsl : stripLeft (d ++ ' ' :: r) = d ++ ' ' :: r := by
    rw [hd0, List.cons_append]
    rw [stripLeft_cons_not_ws c0 _ (hdw c0 (hd0 ▸ List.mem_cons_self c0 d'))]
  by_cases hz : stripRight (' ' :: r) = []
  · have hps : pyStrip (d ++ ' ' :: r) = d := by
      rw [pyStrip, hsl, stripRight_append, if_pos hz]
      exact stripRight_eq_self_of_all d hdw
    refine ⟨[], ?_, Or.inl rfl⟩
    rw [cleanAddr, hdata, hps, slashToComma_fix_digits d hd]
    have h2 := collapse_append_left d [] hdw
    rw [List.append_nil] at h2
    rw [h2]
    rfl
  · obtain ⟨u, hu⟩ := stripRight_cons_shape ' ' r hz
    have hps : pyStrip (d ++ ' ' :: r) = d ++ ' ' :: u := by
      rw [pyStrip, hsl, stripRight_append, if_neg hz, hu]
    have hsp : slashToComma ' ' = ' ' := by decide
    obtain ⟨w, hw⟩ := collapse_ws_head (u.map slashToComma) ' ' (by decide)
    refine ⟨' ' :: w, ?_, Or.inr ⟨w, rfl⟩⟩
    rw [cleanAddr, hdata, hps, List.map_append, slashToComma_fix_digits d hd,
      List.map_cons, hsp, collapse_append_left d _ hdw, hw]

lemma zipMatchHere_digits (d v : List Char) (h5 : d.length = 5)
    (hd : ∀ c ∈ d, pyIsDigit c = true)
    (hv : v = [] ∨ ∃ w, v = ' ' :: w) :
    zipMatchHere (d ++ v) = some (d, v) := by
  rw [zipMatchHere, takeDigits_exact d 5 v h5 hd]
  rcases hv with hv | ⟨w, hv⟩ <;> rw [hv] <;> rfl

lemma searchZipUn_at_head (d v : List Char) (hne : d ≠ []) (h5 : d.length = 5)
    (hd : ∀ c ∈ d, pyIsDigit c = true) (hv : v = [] ∨ ∃ w, v = ' ' :: w) :
    searchZipUn none [] (d ++ v) = some ([], d, v) := by
  obtain ⟨c0, d', hd0⟩ : ∃ c0 d', d = c0 :: d' := by
    cases d with
    | nil => exact absurd rfl hne
    | cons a b => exact ⟨a, b, rfl⟩
  have hm : zipMatchHere (d ++ v) = some (d, v) := zipMatchHere_digits d v h5 hd hv
  rw [hd0, List.cons_append] at hm ⊢
  rw [searchZipUn]
  dsimp only
  rw [hm]
  simp

lemma regexZipTok_digit_head (d r : List Char) (h5 : d.length = 5)
    (hd : ∀ c ∈ d, pyIsDigit c = true) :
    regexZipTok (String.mk (d ++ ' ' :: r)) = d := by
  have hne : d ≠ [] := by
    intro h
    rw [h] at h5
    exact absurd h5 (by decide)
  obtain ⟨v, hclean, hv⟩ := cleanAddr_digit_head d r hne hd
  rw [regexZipTok, hclean, searchZipUn_at_head d v hne h5 hd hv]

lemma takeDigits_head_not_digit (n : Nat) (c : Char) (l : List Char)
    (h : pyIsDigit c = false) : takeDigits (n + 1) (c :: l) = none := by
  rw [takeDigits, if_neg]
  simp [h]

lemma mem_collapseWs (l : List Char) : ∀ c ∈ collapseWs l, c ∈ l ∨ c = ' ' := by
  induction l with
  | nil => intro c hc; simp [collapseWs] at hc
  | cons a t ih =>
    intro c hc
    cases t with
    | nil =>
      by_cases ha : pyWs a <;> simp [collapseWs, ha] at hc <;> simp [hc]
    | cons b r =>
      rw [collapseWs] at hc
      by_cases hab : (pyWs a && pyWs b) = true
      · rw [if_pos hab] at hc
        rcases ih c hc with h1 | h1
        · exact Or.inl (List.mem_cons_of_mem a h1)
        · exact Or.inr h1
      · rw [if_neg hab] at hc
        rw [List.mem_cons] at hc
        rcases hc with hc | hc
        · by_cases ha : pyWs a
          · rw [if_pos ha] at hc
            exact Or.inr hc
          · rw [if_neg ha] at hc
            exact Or.inl (hc ▸ List.mem_cons_self a (b :: r))
        · rcases ih c hc with h1 | h1
          · exact Or.inl (List.mem_cons_of_mem a h1)
          · exact Or.inr h1

lemma mem_pyStrip {c : Char} {l : List Char} (h : c ∈ pyStrip l) : c ∈ l := by
  rw [pyStrip, stripRight] at h
  rw [List.mem_reverse] at h
  have h1 : c ∈ (stripLeft l).reverse := (List.dropWhile_suffix pyWs).subset h
  rw [List.mem_reverse, stripLeft] at h1
  exact (List.dropWhile_suffix pyWs).subset h1

lemma mem_cleanAddr {c : Char} {s : String} (h : c ∈ cleanAddr s) :
    c = ' ' ∨ c = ',' ∨ c ∈ s.data := by
  rw [cleanAddr] at h
  rcases mem_collapseWs _ c h with h1 | h1
  · rcases List.mem_map.mp h1 with ⟨a, ha, hfa⟩
    have ha2 : a ∈ s.data := mem_pyStrip ha
    rw [slashToComma] at hfa
    by_cases hsl : (a == '/') = true
    · rw [if_pos hsl] at hfa
      exact Or.inr (Or.inl hfa.symm)
    · rw [if_neg hsl] at hfa
      exact Or.inr (Or.inr (hfa ▸ ha2))
  · exact Or.inl h1

lemma searchZipUn_no_digit : ∀ (prev : Option Char) (acc l : List Char),
    (∀ c ∈ l, pyIsDigit c = false) → searchZipUn prev acc l = none := by
  intro prev acc l
  induction l generalizing prev acc with
  | nil => intro _; rfl
  | cons c rest ih =>
    intro h
    have h5 : takeDigits 5 (c :: rest) = none :=
      takeDigits_head_not_digit 4 c rest (h c (List.mem_cons_self c rest))
    have hz : zipMatchHere (c :: rest) = none := by
      rw [zipMatchHere, h5]
    rw [searchZipUn.eq_def]
    dsimp only
    rw [hz, ite_self]
    exact ih (some c) (c :: acc) (fun x hx => h x (List.mem_cons_of_mem c hx))

lemma regexZipTok_no_digit (s : String) (h : ∀ c ∈ s.data, pyIsDigit c = false) :
    regexZipTok s = [] := by
  rw [regexZipTok, searchZipUn_no_digit none [] (cleanAddr s)]
  intro c hc
  rcases mem_cleanAddr hc with h1 | h1 | h1
  · rw [h1]; decide
  · rw [h1]; decide
  · exact h c h1

/-- Counterexample to claim C3 as stated: on
`12345 MAIN ST, MIAMI, FL 33133` the rule-based decomposer
`parse_address_regex` takes the 5-digit HOUSE NUMBER `12345` as the zip,
not the trailing token `33133` — its regex is not anchored at the end of
the string. -/
theorem C3_counterexample :
    (parse_address_regex (some ("12345 MAIN ST, MIAMI, FL 33133"))).zip_code = "12345" ∧
    (parse_address_regex (some ("12345 MAIN ST, MIAMI, FL 33133"))).zip_code ≠ "33133" := by
  constructor
  · decide
  · decide

/-- Claim C3 as amended: `parse_address_regex` locates the ZIP token as the
FIRST word-bounded run of five digits (optionally `-` and four more)
anywhere in the cleaned string — in particular a leading 5-digit house
number followed by a space is always taken as the zip, whatever follows —
and the zip is empty when the string has no digit at all.  The end-anchored
behavior described by the claim belongs to `parse_address` of
`add_leads_to_dealmachine.py`, which on the same house-number input picks
the trailing `33133`. -/
theorem C3_amended_zip_location :
    (∀ d r : List Char, d.length = 5 → (∀ c ∈ d, pyIsDigit c = true) →
      (parse_address_regex (some (String.mk (d ++ ' ' :: r)))).zip_code = String.mk d) ∧
    (∀ s : String, (∀ c ∈ s.data, pyIsDigit c = false) →
      (parse_address_regex (some s)).zip_code = "") ∧
    (addLeads_parse_address ("12345 MAIN ST MIAMI FL 33133")).zip_code = "33133" := by
  refine ⟨?_, ?_, by decide⟩
  · intro d r h5 hd
    have hsne : String.mk (d ++ ' ' :: r) ≠ "" := by
      rw [ne_eq, string_mk_eq_empty_iff]
      simp
    rw [parse_address_regex, if_neg hsne]
    dsimp only
    rw [regexZipTok_digit_head d r h5 hd]
  · intro s hnod
    by_cases hs : s = ""
    · rw [hs]
      decide
    · rw [parse_address_regex, if_neg hs]
      dsimp only
      rw [regexZipTok_no_digit s hnod]

/-- Witness for C3 (amended): the first conjunct at house number `98765`,
the second at a digit-free string. -/
theorem C3_witness :
    ((("98765").data.length = 5 ∧ ∀ c ∈ ("98765").data, pyIsDigit c = true) ∧
      (parse_address_regex
        (some (String.mk (("98765").data ++ ' ' :: ("OAK AVE OCALA FL").data)))).zip_code =
        String.mk (("98765").data)) ∧
    ((∀ c ∈ ("NO DIGITS HERE").data, pyIsDigit c = false) ∧
      (parse_address_regex (some ("NO DIGITS HERE"))).zip_code = "") :=
  ⟨⟨by decide,
    C3_amended_zip_location.1 (("98765").data) (("OAK AVE OCALA FL").data)
      (by decide) (by decide)⟩,
   ⟨by decide, C3_amended_zip_location.2.1 ("NO DIGITS HERE") (by decide)⟩⟩

/-! ## Claim C4: the comma split -/

lemma breakAt_append (sep : Char) (pre post : List Char) (h : sep ∉ pre) :
    breakAt sep (pre ++ sep :: post) = (pre, post) := by
  induction pre with
  | nil => simp [breakAt]
  | cons c pre' ih =>
    have hc : ¬(c == sep) = true := by
      simp only [beq_iff_eq]
      intro he
      exact h (he ▸ List.mem_cons_self c pre')
    rw [List.cons_append, breakAt, if_neg hc]
    dsimp only
    rw [ih (fun hm => h (List.mem_cons_of_mem c hm))]

/-- Counterexample to claim C4 as stated: on
`1 MAIN ST, APT 2, MIAMI FL 33133` (two commas in the remainder) the
rule-based decomposer does NOT split on the first comma: it splits on every
comma, takes the LAST nonempty part `MIAMI` as the city and joins the
earlier parts with spaces as the street, so street is `1 MAIN ST APT 2`
instead of `1 MAIN ST`. -/
theorem C4_counterexample :
    (parse_address_regex (some ("1 MAIN ST, APT 2, MIAMI FL 33133"))).street =
      "1 MAIN ST APT 2" ∧
    (parse_address_regex (some ("1 MAIN ST, APT 2, MIAMI FL 33133"))).city = "MIAMI" ∧
    (parse_address_regex (some ("1 MAIN ST, APT 2, MIAMI FL 33133"))).street ≠
      "1 MAIN ST" := by
  refine ⟨by decide, by decide, by decide⟩

/-- Claim C4 as amended: when a comma remains in the remainder,
`parse_address_regex` splits on ALL commas — the last nonempty stripped
segment becomes the city and the earlier segments are rejoined with single
spaces as the street — and its street/city outputs are exactly the cleanup
of that split.  The split-once-on-the-first-comma behavior described by the
claim belongs to `parse_address` of `add_leads_to_dealmachine.py`, where
everything left of the first comma becomes the street and everything right
of it (later commas included) stays joined as the city. -/
theorem C4_amended_comma_split :
    (∀ (rem : List Char) (ps : List (List Char)) (c : List Char),
      ps ≠ [] → partsOf rem = ps ++ [c] → ',' ∈ rem →
      commaSplitRegex rem = (joinSpace ps, c)) ∧
    (∀ s : String,
      (parse_address_regex (some s)).street =
        String.mk (cleanField (commaSplitRegex (regexRemainder s)).1) ∧
      (parse_address_regex (some s)).city =
        String.mk (cleanField (commaSplitRegex (regexRemainder s)).2)) ∧
    (∀ pre post : List Char, ',' ∉ pre →
      leadsStreetCity (pre ++ ',' :: post) = (pyStrip pre, pyStrip post)) ∧
    addLeads_parse_address ("1 MAIN ST, APT 2, MIAMI FL 33133") =
      ⟨"1 MAIN ST", "APT 2, MIAMI", "FL", "33133", ""⟩ := by
  refine ⟨?_, ?_, ?_, by decide⟩
  · intro rem ps c hne hp hmem
    rw [commaSplitRegex, if_pos hmem, hp]
    rcases ps with _ | ⟨a, ps'⟩
    · exact absurd rfl hne
    simp only [List.cons_append]
    obtain ⟨q, rest, hqr⟩ : ∃ q rest, ps' ++ [c] = q :: rest := by
      cases ps' with
      | nil => exact ⟨c, [], rfl⟩
      | cons y ys => exact ⟨y, ys ++ [c], by simp⟩
    rw [hqr]
    dsimp only
    have hdl : (a :: q :: rest).dropLast = a :: ps' := by
      rw [← hqr, ← List.cons_append]
      exact List.dropLast_concat
    have hgl : (a :: q :: rest).getLastD [] = c := by
      rw [← hqr, ← List.cons_append]
      exact List.getLastD_concat _ _ _
    rw [hdl, hgl]
  · intro s
    by_cases hs : s = ""
    · rw [hs]
      constructor <;> decide
    · rw [parse_address_regex, if_neg hs]
      exact ⟨rfl, rfl⟩
  · intro pre post h
    have hmem : ',' ∈ pre ++ ',' :: post :=
      List.mem_append_right _ (List.mem_cons_self _ _)
    rw [leadsStreetCity, if_pos hmem]
    dsimp only
    rw [breakAt_append ',' pre post h]

/-- Witness for C4 (amended): the all-comma split at a concrete
three-segment remainder, and the first-comma split of the other script at a
concrete pair. -/
theorem C4_witness :
    ((partsOf (("1 A ST, B, C").data) =
        [("1 A ST").data, ("B").data] ++ [("C").data] ∧
      ',' ∈ ("1 A ST, B, C").data) ∧
      commaSplitRegex (("1 A ST, B, C").data) =
        (joinSpace [("1 A ST").data, ("B").data], ("C").data)) ∧
    ((',' ∉ ("1 A ST").data) ∧
      leadsStreetCity (("1 A ST").data ++ ',' :: (" B, C").data) =
        (pyStrip (("1 A ST").data), pyStrip ((" B, C").data))) :=
  ⟨⟨⟨by decide, by decide⟩,
    C4_amended_comma_split.1 (("1 A ST, B, C").data)
      [("1 A ST").data, ("B").data] (("C").data) (by decide) (by decide) (by decide)⟩,
   ⟨by decide,
    C4_amended_comma_split.2.2.1 (("1 A ST").data) ((" B, C").data) (by decide)⟩⟩

/-! ## Claim C5: the street-suffix split -/

lemma findSuffixIdx_spec : ∀ (ws : List (List Char)) (k : Nat),
    findSuffixIdx ws = some k →
    ∃ a w b, ws = a ++ w :: b ∧ k = a.length + 1 ∧ isStreetIndicator w = true ∧
      ∀ u ∈ a, isStreetIndicator u = false := by
  intro ws
  induction ws with
  | nil => intro k h; simp [findSuffixIdx] at h
  | cons w0 rest ih =>
    intro k h
    rw [findSuffixIdx] at h
    by_cases hw : isStreetIndicator w0 = true
    · rw [if_pos hw] at h
      injection h with h1
      refine ⟨[], w0, rest, rfl, ?_, hw, by simp⟩
      simp [← h1]
    · rw [if_neg hw] at h
      have hw' : isStreetIndicator w0 = false := by simpa using hw
      cases hr : findSuffixIdx rest with
      | none => rw [hr] at h; simp at h
      | some k0 =>
        rw [hr] at h
        simp only [Option.map_some'] at h
        injection h with h1
        obtain ⟨a, w, b, hws, hkk, hiw, hall⟩ := ih k0 hr
        refine ⟨w0 :: a, w, b, by rw [hws]; rfl, ?_, hiw, ?_⟩
        · rw [← h1, hkk]
          simp
        · intro u hu
          rw [List.mem_cons] at hu
          rcases hu with hu | hu
          · rw [hu]
            exact hw'
          · exact hall u hu

lemma take_drop_len_succ (a : List (List Char)) (w : List Char) (b : List (List Char)) :
    (a ++ w :: b).take (a.length + 1) = a ++ [w] ∧
    (a ++ w :: b).drop (a.length + 1) = b := by
  induction a with
  | nil => simp
  | cons x a' ih =>
    simp only [List.cons_append, List.length_cons, List.take_succ_cons,
      List.drop_succ_cons]
    exact ⟨by rw [ih.1], ih.2⟩

/-- Counterexample to claim C5 as stated: on `123 MAIN ST MIAMI FL 33133`
(no comma in the remainder) the rule-based decomposer performs NO
street-suffix split at all — the whole remainder becomes the street and
the city is empty, instead of street `123 MAIN ST` and city `MIAMI`. -/
theorem C5_counterexample :
    (parse_address_regex (some ("123 MAIN ST MIAMI FL 33133"))).street =
      "123 MAIN ST MIAMI" ∧
    (parse_address_regex (some ("123 MAIN ST MIAMI FL 33133"))).city = "" ∧
    (parse_address_regex (some ("123 MAIN ST MIAMI FL 33133"))).street ≠
      "123 MAIN ST" := by
  refine ⟨by decide, by decide, by decide⟩

/-- Claim C5 as amended: with no comma in the remainder,
`parse_address_regex` assigns the WHOLE remainder to the street and leaves
the city empty — it has no suffix-token splitting.  The described split on
the first known street-suffix token (ST, AVE, RD, ... and long forms)
exists only in `parse_address` of `add_leads_to_dealmachine.py`: when the
remainder has no comma and no slash and the first suffix token is not the
last word, everything up to and including that token becomes the street and
the remaining words become the city. -/
theorem C5_amended_suffix_split :
    (∀ s : String, ',' ∉ regexRemainder s →
      (parse_address_regex (some s)).street = String.mk (cleanField (regexRemainder s)) ∧
      (parse_address_regex (some s)).city = "") ∧
    (∀ (aws : List Char) (k : Nat),
      findSuffixIdx (pyWords aws) = some k → k < (pyWords aws).length →
      ',' ∉ aws → '/' ∉ aws →
      ∃ a w b, pyWords aws = a ++ w :: b ∧ isStreetIndicator w = true ∧
        (∀ u ∈ a, isStreetIndicator u = false) ∧ b ≠ [] ∧
        leadsStreetCity aws = (joinSpace (a ++ [w]), joinSpace b)) ∧
    addLeads_parse_address ("123 MAIN ST MIAMI FL 33133") =
      ⟨"123 MAIN ST", "MIAMI", "FL", "33133", ""⟩ := by
  refine ⟨?_, ?_, by decide⟩
  · intro s h
    by_cases hs : s = ""
    · rw [hs]
      constructor <;> decide
    · rw [parse_address_regex, if_neg hs]
      dsimp only
      rw [commaSplitRegex, if_neg h]
      exact ⟨rfl, rfl⟩
  · intro aws k hfind hk hnc hns
    obtain ⟨a, w, b, hws, hkk, hiw, hall⟩ := findSuffixIdx_spec (pyWords aws) k hfind
    have hb : b ≠ [] := by
      intro hb0
      rw [hws, hb0, hkk] at hk
      simp [List.length_append] at hk
    refine ⟨a, w, b, hws, hiw, hall, hb, ?_⟩
    rw [leadsStreetCity, if_neg hnc, if_neg hns]
    dsimp only
    rw [hfind]
    dsimp only
    rw [if_pos hk, hkk, hws]
    rw [(take_drop_len_succ a w b).1, (take_drop_len_succ a w b).2]

/-- Witness for C5 (amended): conjunct one at the comma-free spec example,
conjunct two at the concrete remainder `9 ELM ST SARASOTA`. -/
theorem C5_witness :
    ((',' ∉ regexRemainder ("4390 SW 20TH AVE GAINESVILLE FL 32607")) ∧
      ((parse_address_regex (some ("4390 SW 20TH AVE GAINESVILLE FL 32607"))).street =
        String.mk (cleanField (regexRemainder ("4390 SW 20TH AVE GAINESVILLE FL 32607"))) ∧
       (parse_address_regex (some ("4390 SW 20TH AVE GAINESVILLE FL 32607"))).city = "")) ∧
    ((findSuffixIdx (pyWords (("9 ELM ST SARASOTA").data)) = some 3 ∧
      3 < (pyWords (("9 ELM ST SARASOTA").data)).length ∧
      ',' ∉ ("9 ELM ST SARASOTA").data ∧ '/' ∉ ("9 ELM ST SARASOTA").data) ∧
      ∃ a w b, pyWords (("9 ELM ST SARASOTA").data) = a ++ w :: b ∧
        isStreetIndicator w = true ∧
        (∀ u ∈ a, isStreetIndicator u = false) ∧ b ≠ [] ∧
        leadsStreetCity (("9 ELM ST SARASOTA").data) =
          (joinSpace (a ++ [w]), joinSpace b)) :=
  ⟨⟨by decide,
    C5_amended_suffix_split.1 ("4390 SW 20TH AVE GAINESVILLE FL 32607") (by decide)⟩,
   ⟨⟨by decide, by decide, by decide, by decide⟩,
    C5_amended_suffix_split.2.1 (("9 ELM ST SARASOTA").data) 3
      (by decide) (by decide) (by decide) (by decide)⟩⟩
